import Mathlib

/-!
# Poco::Net::SMTPClientSession

A shallow embedding of `Net/include/Poco/Net/SMTPClientSession.h` and proofs of
its specified properties.

The header carries the constants, the enumerations, the member declarations and
the four inline status predicates of the class; those are embedded from the
header.  The member functions whose bodies live outside the header are embedded
from the written specification, and each such definition says so.
-/

namespace SMTPClientSession

/-! ## Part 1: the header -/

/-- The anonymous enumeration `enum { SMTP_PORT = 25 }`. -/
def SMTP_PORT : Nat := 25

/-- The enumeration `LoginMethod { AUTH_NONE, AUTH_CRAM_MD5, AUTH_LOGIN }`. -/
inductive LoginMethod where
  | AUTH_NONE
  | AUTH_CRAM_MD5
  | AUTH_LOGIN
  deriving DecidableEq, Repr

/-- The integral value of an enumerator: the first enumerator of an enumeration
without initialisers is 0 and every further one is its predecessor plus one. -/
def LoginMethod.toInt : LoginMethod → Int
  | .AUTH_NONE => 0
  | .AUTH_CRAM_MD5 => 1
  | .AUTH_LOGIN => 2

/-- The enumerators of `LoginMethod`, by name, in declaration order. -/
def LoginMethod.enumerators : List (String × LoginMethod) :=
  [("AUTH_NONE", .AUTH_NONE), ("AUTH_CRAM_MD5", .AUTH_CRAM_MD5), ("AUTH_LOGIN", .AUTH_LOGIN)]

/-- The enumeration `StatusClass`, with its explicit initialisers. -/
def SMTP_POSITIVE_COMPLETION : Int := 2

/-- The enumerator `SMTP_POSITIVE_INTERMEDIATE = 3`. -/
def SMTP_POSITIVE_INTERMEDIATE : Int := 3

/-- The enumerator `SMTP_TRANSIENT_NEGATIVE = 4`. -/
def SMTP_TRANSIENT_NEGATIVE : Int := 4

/-- The enumerator `SMTP_PERMANENT_NEGATIVE = 5`. -/
def SMTP_PERMANENT_NEGATIVE : Int := 5

/-- The anonymous enumeration `enum { DEFAULT_TIMEOUT = 30000000 }`. -/
def DEFAULT_TIMEOUT : Int := 30000000

/-- The body of `isPositiveCompletion`: `status/100 == SMTP_POSITIVE_COMPLETION`.
The division of two `int`s truncates toward zero (`Int.tdiv`); dividing by 100
cannot overflow, so `int` is embedded as `Int`. -/
def isPositiveCompletion (status : Int) : Bool :=
  Int.tdiv status 100 == SMTP_POSITIVE_COMPLETION

/-- The body of `isPositiveIntermediate`: `status/100 == SMTP_POSITIVE_INTERMEDIATE`. -/
def isPositiveIntermediate (status : Int) : Bool :=
  Int.tdiv status 100 == SMTP_POSITIVE_INTERMEDIATE

/-- The body of `isTransientNegative`: `status/100 == SMTP_TRANSIENT_NEGATIVE`. -/
def isTransientNegative (status : Int) : Bool :=
  Int.tdiv status 100 == SMTP_TRANSIENT_NEGATIVE

/-- The body of `isPermanentNegative`: `status/100 == SMTP_PERMANENT_NEGATIVE`. -/
def isPermanentNegative (status : Int) : Bool :=
  Int.tdiv status 100 == SMTP_PERMANENT_NEGATIVE

/-- The access of a class member: `public:`, `protected:` or `private:`. -/
inductive Access where
  | pub
  | prot
  | priv
  deriving DecidableEq, Repr

/-- The members the class declares, each with the access section it stands in,
in the order of the header.  Overloads appear once per declaration. -/
def members : List (Access × String) :=
  [ (.pub, "SMTP_PORT"),
    (.pub, "LoginMethod"),
    (.pub, "SMTPClientSession"),
    (.pub, "SMTPClientSession"),
    (.pub, "~SMTPClientSession"),
    (.pub, "setTimeout"),
    (.pub, "getTimeout"),
    (.pub, "login"),
    (.pub, "login"),
    (.pub, "login"),
    (.pub, "open"),
    (.pub, "close"),
    (.pub, "sendMessage"),
    (.pub, "sendCommand"),
    (.pub, "sendCommand"),
    (.prot, "StatusClass"),
    (.prot, "DEFAULT_TIMEOUT"),
    (.prot, "isPositiveCompletion"),
    (.prot, "isPositiveIntermediate"),
    (.prot, "isTransientNegative"),
    (.prot, "isPermanentNegative"),
    (.prot, "login"),
    (.prot, "loginUsingCRAM_MD5"),
    (.prot, "loginUsingLogin"),
    (.prot, "loginUsingPlain"),
    (.priv, "_socket"),
    (.priv, "_isOpen") ]

/-- The access sections in which a member of the given name is declared. -/
def accessOf (name : String) : List Access :=
  (members.filter (fun m => m.2 == name)).map (fun m => m.1)

/-- The port a session created from a host name connects to: the constructor
`SMTPClientSession(const std::string& host, Poco::UInt16 port = SMTP_PORT)`
takes the caller's port when one is passed and `SMTP_PORT` otherwise. -/
def constructorPort (port : Option Nat) : Nat :=
  match port with
  | some p => p
  | none => SMTP_PORT

/-- The number of microseconds in a second. -/
def microsecondsPerSecond : Int := 1000000

/-- The high-order decimal digit of a non-negative code (0 for the code 0):
the last entry of its little-endian list of decimal digits. -/
def highOrderDigit (c : Int) : Nat :=
  ((Nat.digits 10 c.toNat).getLast?).getD 0

/-- The hundreds digit of a non-negative code: the entry of weight 100 in its
little-endian list of decimal digits. -/
def hundredsDigit (c : Int) : Nat :=
  (Nat.digits 10 c.toNat).getD 2 0

/-- How many of the four status predicates accept a status. -/
def classCount (status : Int) : Nat :=
  ([isPositiveCompletion status, isPositiveIntermediate status,
    isTransientNegative status, isPermanentNegative status].filter (fun b => b)).length

/-! ## Part 2: the member functions, from the specification

The header declares `open`, `login`, `sendCommand`, `sendMessage` and
`loginUsingCRAM_MD5` without their bodies.  Each definition below follows the
written specification of the function it names. -/

/-- One `char` of a `std::string`. -/
abbrev Byte := Fin 256

/-- The bytes of an ASCII string literal. -/
def str (s : String) : List Byte := s.toList.map (fun c => Fin.ofNat c.toNat)

/-- Carriage return. -/
def CR : Byte := 13

/-- Line feed. -/
def LF : Byte := 10

/-- Space. -/
def SP : Byte := 32

/-- Full stop. -/
def DOT : Byte := 46

/-- Hyphen. -/
def DASH : Byte := 45

/-- The error taxonomy of the specification (section 7). -/
inductive ErrorKind where
  | TransportError
  | ProtocolError
  | AuthError
  | TransientError
  | PermanentError
  | DeliveryError
  | UsageError
  deriving DecidableEq, Repr

instance instDecidableEqExcept {ε α : Type} [DecidableEq ε] [DecidableEq α] :
    DecidableEq (Except ε α) := fun x y =>
  match x, y with
  | .ok a, .ok b => if h : a = b then isTrue (by rw [h]) else isFalse (fun e => h (by cases e; rfl))
  | .error a, .error b =>
    if h : a = b then isTrue (by rw [h]) else isFalse (fun e => h (by cases e; rfl))
  | .ok _, .error _ => isFalse (fun e => by cases e)
  | .error _, .ok _ => isFalse (fun e => by cases e)

/-- Modelled from the spec: the Reply value of section 3 (the reply parser's
body is outside the header): a status code and a text buffer. -/
structure Reply where
  code : Nat
  text : List Byte
  deriving DecidableEq, Repr

/-- The value of a decimal digit, `none` for any other byte. -/
def digitValue (b : Byte) : Option Nat :=
  if 48 ≤ b.val ∧ b.val ≤ 57 then some (b.val - 48) else none

/-- Modelled from the spec: steps 1 and 2 of `read_reply` (section 4.2), whose
body is outside the header.  The code of a line is the number its first three
bytes spell; a line shorter than three bytes or not starting with three digits
has none. -/
def lineCode : List Byte → Option Nat
  | a :: b :: c :: _ =>
    match digitValue a, digitValue b, digitValue c with
    | some x, some y, some z => some (100 * x + 10 * y + z)
    | _, _, _ => none
  | _ => none

/-- Modelled from the spec: the loop of `read_reply` (section 4.2), whose body
is outside the header.  `recorded` is the code of the lines read so far and
`acc` the text assembled so far; the argument is the queue of lines that
`receive_line` will deliver, and the result carries the lines left unread.
An empty queue is a read that times out (`TransportError`).  A line that has no
code is a `ProtocolError`; so is a line whose code differs from the recorded
one, and a line whose fourth byte is neither a space nor a hyphen (section 6:
reply lines match `DDD[- ]text`).  A line of length 3, or with a space as its
fourth byte, ends the reply; a hyphen appends the remainder and a line feed to
the text and loops. -/
def read_reply_from (recorded : Option Nat) (acc : List Byte) :
    List (List Byte) → Except ErrorKind Reply × List (List Byte)
  | [] => (.error .TransportError, [])
  | line :: rest =>
    match lineCode line with
    | none => (.error .ProtocolError, rest)
    | some code =>
      if recorded.isSome ∧ recorded ≠ some code then (.error .ProtocolError, rest)
      else
        match line.drop 3 with
        | [] => (.ok { code := code, text := acc }, rest)
        | sep :: remainder =>
          if sep = SP then (.ok { code := code, text := acc ++ remainder }, rest)
          else if sep = DASH then
            read_reply_from (some code) (acc ++ remainder ++ [LF]) rest
          else (.error .ProtocolError, rest)

/-- Modelled from the spec: `read_reply` (section 4.2): no code recorded and an
empty text at the first line. -/
def read_reply (lines : List (List Byte)) : Except ErrorKind Reply × List (List Byte) :=
  read_reply_from none [] lines

/-- Modelled from the spec: the Session of section 3, together with the two
sides of its Line Dialog.  `isOpen` is the member `_isOpen` of the header;
`timeout` is the read timeout; `incoming` is the queue of lines the server
delivers, in order; `wire` is every byte written to the server so far;
`replyReads` counts the replies the session has asked the reply parser for. -/
structure Session where
  isOpen : Bool
  timeout : Int
  incoming : List (List Byte)
  wire : List Byte
  replyReads : Nat
  deriving DecidableEq, Repr

/-- Modelled from the spec: a session created around a connected stream
(section 3): not open, default timeout, nothing written, nothing read. -/
def connect (incoming : List (List Byte)) : Session :=
  { isOpen := false, timeout := DEFAULT_TIMEOUT, incoming := incoming, wire := [],
    replyReads := 0 }

/-- Modelled from the spec: `send_line` (section 4.1): the line followed by
CRLF goes to the wire.  The stream accepts every write. -/
def send_line (line : List Byte) (s : Session) : Session :=
  { s with wire := s.wire ++ line ++ [CR, LF] }

/-- Modelled from the spec: one call of the reply parser on the session's
Line Dialog: the reply or the error, and the session with the consumed lines
gone and the read counted. -/
def readReply (s : Session) : Except ErrorKind Reply × Session :=
  ((read_reply s.incoming).1,
    { s with incoming := (read_reply s.incoming).2, replyReads := s.replyReads + 1 })

/-- Modelled from the spec: `open()` (section 4.4), declared in the header
without a body.  If already open, returns immediately.  Otherwise reads one
reply and requires positive completion; on any other reply it is a
`ProtocolError` and the session remains closed. -/
def «open» (s : Session) : Except ErrorKind Unit × Session :=
  if s.isOpen then (.ok (), s)
  else
    match readReply s with
    | (.error e, s1) => (.error e, s1)
    | (.ok r, s1) =>
      if isPositiveCompletion r.code then (.ok (), { s1 with isOpen := true })
      else (.error .ProtocolError, s1)

/-- Modelled from the spec: `send_command(cmd[, arg])` (section 4.4), declared
in the header without a body.  Sends `cmd`, followed by a space and `arg` when
there is one, reads a reply and returns it verbatim, unclassified. -/
def sendCommand (command : List Byte) (arg : Option (List Byte)) (s : Session) :
    Except ErrorKind Reply × Session :=
  match arg with
  | none => readReply (send_line command s)
  | some a => readReply (send_line (command ++ [SP] ++ a) s)

/-- Modelled from the spec: `login(hostname)` with the out-buffer for the reply
text (section 4.4), declared in the header without a body.  Calls `open()`,
then sends `EHLO hostname`.  A 2xx reply succeeds.  A 5xx reply falls back to
`HELO hostname`, whose reply must be 2xx (`ProtocolError` otherwise).  A 4xx
reply is fatal (`TransientError`, the kind section 7 gives a 4xx reply); a
reply of any other class is a `ProtocolError`. -/
def login_response (hostname : List Byte) (s : Session) :
    Except ErrorKind (List Byte) × Session :=
  match «open» s with
  | (.error e, s1) => (.error e, s1)
  | (.ok _, s1) =>
    match sendCommand (str "EHLO") (some hostname) s1 with
    | (.error e, s2) => (.error e, s2)
    | (.ok r, s2) =>
      if isPositiveCompletion r.code then (.ok r.text, s2)
      else if isPermanentNegative r.code then
        match sendCommand (str "HELO") (some hostname) s2 with
        | (.error e, s3) => (.error e, s3)
        | (.ok r2, s3) =>
          if isPositiveCompletion r2.code then (.ok r2.text, s3)
          else (.error .ProtocolError, s3)
      else if isTransientNegative r.code then (.error .TransientError, s2)
      else (.error .ProtocolError, s2)

/-- Modelled from the spec: `login(hostname)` (section 4.4): the overload
without the out-buffer drops the reply text. -/
def login (hostname : List Byte) (s : Session) : Except ErrorKind Unit × Session :=
  match login_response hostname s with
  | (.error e, s1) => (.error e, s1)
  | (.ok _, s1) => (.ok (), s1)

/-- Two consecutive calls of `open()`: the second call runs when the first one
returns, and an error of the first call propagates. -/
def openTwice (s : Session) : Except ErrorKind Unit × Session :=
  match «open» s with
  | (.error e, s1) => (.error e, s1)
  | (.ok _, s1) => «open» s1

/-- Modelled from the spec: the content bytes of step 4 of `send_message`
(section 4.4), whose body is outside the header.  Every line whose first byte is
a full stop gets one more full stop in front; lines are delimited by CRLF, and a
bare LF (one not preceded by CR) is written as CRLF.  `atLineStart` says that
the next byte starts a line, `prevCR` that the byte before was a CR. -/
def stuffPayload (atLineStart prevCR : Bool) : List Byte → List Byte
  | [] => []
  | b :: rest =>
    if b = LF then
      (if prevCR then [LF] else [CR, LF]) ++ stuffPayload true false rest
    else if b = DOT ∧ atLineStart = true then DOT :: DOT :: stuffPayload false false rest
    else b :: stuffPayload false (decide (b = CR)) rest

/-- Modelled from the spec: the bytes step 4 of `send_message` (section 4.4)
writes after the DATA command, for the message content `payload`; the body of
`sendMessage` is outside the header.  The dot-stuffed content is followed by
the terminator line, a full stop and CRLF; a content that does not end with a
newline gets a CRLF before the terminator (section 8, boundary behaviours, and
scenarios S1 and S5). -/
def sendMessage_data (payload : List Byte) : List Byte :=
  stuffPayload true false payload
    ++ (if payload.getLast? = some LF then [] else [CR, LF])
    ++ [DOT, CR, LF]

/-- Dot-unstuffing, as the server applies it: one leading full stop is removed
from every line that starts with one.  Lines are delimited by CRLF;
`atLineStart` says that the next byte starts a line, `prevCR` that the byte
before was a CR. -/
def dotUnstuff (atLineStart prevCR : Bool) : List Byte → List Byte
  | [] => []
  | b :: rest =>
    if b = DOT ∧ atLineStart = true then dotUnstuff false false rest
    else b :: dotUnstuff (prevCR && decide (b = LF)) (decide (b = CR)) rest

/-- The data with the final CRLF, full stop, CRLF removed; `none` when the data
does not end so. -/
def stripTerminator (data : List Byte) : Option (List Byte) :=
  match data.reverse with
  | l2 :: c2 :: d :: l1 :: c1 :: front =>
    if l2 = LF ∧ c2 = CR ∧ d = DOT ∧ l1 = LF ∧ c1 = CR then some front.reverse else none
  | _ => none

/-- What the server observes as the payload: the bytes written after DATA, with
the terminator stripped and dot-unstuffing applied. -/
def observedPayload (payload : List Byte) : Option (List Byte) :=
  (stripTerminator (sendMessage_data payload)).map (dotUnstuff true false)

/-- The text with every bare LF (one not preceded by CR) replaced by CRLF;
`prevCR` says that the byte before was a CR. -/
def normalizeLF (prevCR : Bool) : List Byte → List Byte
  | [] => []
  | b :: rest =>
    if b = LF then (if prevCR then [LF] else [CR, LF]) ++ normalizeLF false rest
    else b :: normalizeLF (decide (b = CR)) rest

/-- Whether the text has a bare LF; `prevCR` says that the byte before was a CR. -/
def hasBareLF (prevCR : Bool) : List Byte → Bool
  | [] => false
  | b :: rest =>
    if b = LF then (!prevCR) || hasBareLF false rest
    else hasBareLF (decide (b = CR)) rest

/-- The text without its final CRLF, when it ends with one. -/
def stripTrailingCRLF (text : List Byte) : List Byte :=
  match text.reverse with
  | l :: c :: front => if l = LF ∧ c = CR then front.reverse else text
  | _ => text

/-- The three decimal digits that spell a code below 1000. -/
def threeDigits (code : Nat) : List Byte :=
  [Fin.ofNat (48 + code / 100), Fin.ofNat (48 + code / 10 % 10), Fin.ofNat (48 + code % 10)]

/-- A continuation line of a reply: three digits and a hyphen. -/
def isContinuationLine (line : List Byte) : Bool :=
  (lineCode line).isSome && decide (line.get? 3 = some DASH)

/-- A final line of a reply: three digits, then nothing or a space. -/
def isFinalLine (line : List Byte) : Bool :=
  (lineCode line).isSome && (decide (line.length = 3) || decide (line.get? 3 = some SP))

/-- The lines are continuation lines up to the last one, which is a final line,
and each of them starts with the three bytes `digits`. -/
def wellFormedFrom (digits : List Byte) : List (List Byte) → Bool
  | [] => false
  | [line] => isFinalLine line && decide (line.take 3 = digits)
  | line :: rest =>
    isContinuationLine line && decide (line.take 3 = digits) && wellFormedFrom digits rest

/-- A well-formed reply group (RFC 5321, section 4.2): zero or more continuation
lines and one final line, all with the same three leading digits. -/
def wellFormedGroup (group : List (List Byte)) : Bool :=
  match group with
  | [] => false
  | line :: _ => wellFormedFrom (line.take 3) group

/-- The byte with the given value (modulo 256). -/
def byteOf (n : Nat) : Byte := Fin.ofNat n

/-- The base64 alphabet (RFC 4648, section 4). -/
def base64Alphabet : List Byte :=
  str "ABCDEFGHIJKLMNOPQRSTUVWXYZabcdefghijklmnopqrstuvwxyz0123456789+/"

/-- The base64 padding byte, an equals sign. -/
def PAD : Byte := 61

/-- The base64 digit of a six-bit value. -/
def base64Char (n : Nat) : Byte := base64Alphabet.getD n PAD

/-- The six-bit value of a base64 digit, `none` for any other byte. -/
def base64Value (c : Byte) : Option Nat :=
  if base64Alphabet.indexOf c < 64 then some (base64Alphabet.indexOf c) else none

/-- Modelled from the spec: the base64 encoding the Authenticator applies
(section 4.3; RFC 4648 with padding, on a single line); its code is outside the
header. -/
def base64Encode : List Byte → List Byte
  | [] => []
  | [a] => [base64Char (a.val / 4), base64Char (a.val % 4 * 16), PAD, PAD]
  | [a, b] =>
    [base64Char (a.val / 4), base64Char (a.val % 4 * 16 + b.val / 16),
      base64Char (b.val % 16 * 4), PAD]
  | a :: b :: c :: rest =>
    base64Char (a.val / 4) :: base64Char (a.val % 4 * 16 + b.val / 16)
      :: base64Char (b.val % 16 * 4 + c.val / 64) :: base64Char (c.val % 64)
      :: base64Encode rest

/-- Modelled from the spec: the base64 decoding the Authenticator applies
(section 4.3; RFC 4648 with padding); its code is outside the header.  The text
is read four digits at a time; padding is accepted in the last group only, and
any other byte outside the alphabet makes the text malformed (`none`). -/
def base64Decode : List Byte → Option (List Byte)
  | [] => some []
  | c1 :: c2 :: c3 :: c4 :: rest =>
    match base64Value c1, base64Value c2 with
    | some v1, some v2 =>
      if c3 = PAD then
        if c4 = PAD ∧ rest = [] then some [byteOf (v1 * 4 + v2 / 16)] else none
      else
        match base64Value c3 with
        | none => none
        | some v3 =>
          if c4 = PAD then
            if rest = [] then
              some [byteOf (v1 * 4 + v2 / 16), byteOf (v2 % 16 * 16 + v3 / 4)]
            else none
          else
            match base64Value c4 with
            | none => none
            | some v4 =>
              match base64Decode rest with
              | none => none
              | some tail =>
                some (byteOf (v1 * 4 + v2 / 16) :: byteOf (v2 % 16 * 16 + v3 / 4)
                  :: byteOf (v3 % 4 * 64 + v4) :: tail)
    | _, _ => none
  | _ => none

/-- Rotation of a 32-bit word to the left by `n` bits. -/
def rotl32 (x n : Nat) : Nat := ((x <<< n) ||| (x >>> (32 - n))) % 4294967296

/-- The complement of a 32-bit word. -/
def not32 (x : Nat) : Nat := x ^^^ 4294967295

/-- The per-step shift amounts of MD5 (RFC 1321, section 3.4). -/
def md5S : List Nat :=
  [7, 12, 17, 22, 7, 12, 17, 22, 7, 12, 17, 22, 7, 12, 17, 22,
   5, 9, 14, 20, 5, 9, 14, 20, 5, 9, 14, 20, 5, 9, 14, 20,
   4, 11, 16, 23, 4, 11, 16, 23, 4, 11, 16, 23, 4, 11, 16, 23,
   6, 10, 15, 21, 6, 10, 15, 21, 6, 10, 15, 21, 6, 10, 15, 21]

/-- The table T of MD5 (RFC 1321, section 3.4): the integer part of
4294967296 times abs(sin(i)), for i from 1 to 64. -/
def md5K : List Nat :=
  [0xd76aa478, 0xe8c7b756, 0x242070db, 0xc1bdceee, 0xf57c0faf, 0x4787c62a, 0xa8304613, 0xfd469501,
   0x698098d8, 0x8b44f7af, 0xffff5bb1, 0x895cd7be, 0x6b901122, 0xfd987193, 0xa679438e, 0x49b40821,
   0xf61e2562, 0xc040b340, 0x265e5a51, 0xe9b6c7aa, 0xd62f105d, 0x02441453, 0xd8a1e681, 0xe7d3fbc8,
   0x21e1cde6, 0xc33707d6, 0xf4d50d87, 0x455a14ed, 0xa9e3e905, 0xfcefa3f8, 0x676f02d9, 0x8d2a4c8a,
   0xfffa3942, 0x8771f681, 0x6d9d6122, 0xfde5380c, 0xa4beea44, 0x4bdecfa9, 0xf6bb4b60, 0xbebfbc70,
   0x289b7ec6, 0xeaa127fa, 0xd4ef3085, 0x04881d05, 0xd9d4d039, 0xe6db99e5, 0x1fa27cf8, 0xc4ac5665,
   0xf4292244, 0x432aff97, 0xab9423a7, 0xfc93a039, 0x655b59c3, 0x8f0ccc92, 0xffeff47d, 0x85845dd1,
   0x6fa87e4f, 0xfe2ce6e0, 0xa3014314, 0x4e0811a1, 0xf7537e82, 0xbd3af235, 0x2ad7d2bb, 0xeb86d391]

/-- The auxiliary functions F, G, H and I of MD5, by step number. -/
def md5F (i b c d : Nat) : Nat :=
  if i < 16 then (b &&& c) ||| (not32 b &&& d)
  else if i < 32 then (d &&& b) ||| (not32 d &&& c)
  else if i < 48 then b ^^^ c ^^^ d
  else c ^^^ (b ||| not32 d)

/-- The message word MD5 uses in step `i`. -/
def md5G (i : Nat) : Nat :=
  if i < 16 then i
  else if i < 32 then (5 * i + 1) % 16
  else if i < 48 then (3 * i + 5) % 16
  else (7 * i) % 16

/-- The four 32-bit registers of MD5. -/
structure MD5State where
  a : Nat
  b : Nat
  c : Nat
  d : Nat
  deriving DecidableEq, Repr

/-- One of the 64 steps of the MD5 compression of the block `m` (16 words). -/
def md5Step (m : List Nat) (st : MD5State) (i : Nat) : MD5State :=
  { a := st.d, d := st.c, c := st.b,
    b := (st.b + rotl32 ((md5F i st.b st.c st.d + st.a + md5K.getD i 0
            + m.getD (md5G i) 0) % 4294967296) (md5S.getD i 0)) % 4294967296 }

/-- The MD5 compression of one block into the registers. -/
def md5Block (st : MD5State) (m : List Nat) : MD5State :=
  { a := (st.a + ((List.range 64).foldl (md5Step m) st).a) % 4294967296,
    b := (st.b + ((List.range 64).foldl (md5Step m) st).b) % 4294967296,
    c := (st.c + ((List.range 64).foldl (md5Step m) st).c) % 4294967296,
    d := (st.d + ((List.range 64).foldl (md5Step m) st).d) % 4294967296 }

/-- The 32-bit word of four bytes, low-order byte first. -/
def leWord : List Nat → Nat
  | [b0, b1, b2, b3] => b0 + 256 * b1 + 65536 * b2 + 16777216 * b3
  | _ => 0

/-- The `n` low-order bytes of `x`, low-order byte first. -/
def leBytes (n : Nat) (x : Nat) : List Nat :=
  (List.range n).map (fun i => (x >>> (8 * i)) % 256)

/-- The list cut into pieces of `k` entries; `fuel` bounds the number of pieces. -/
def chunks (k : Nat) : Nat → List Nat → List (List Nat)
  | 0, _ => []
  | fuel + 1, xs => if xs = [] then [] else xs.take k :: chunks k fuel (xs.drop k)

/-- The MD5 padding: a one bit, zero bits up to 56 modulo 64 bytes, and the
length of the message in bits as 8 bytes, low-order byte first. -/
def md5Pad (msg : List Nat) : List Nat :=
  msg ++ [128] ++ List.replicate ((119 - msg.length % 64) % 64) 0 ++ leBytes 8 (8 * msg.length)

/-- Modelled from the spec: the MD5 digest under the `HMAC-MD5` of section 4.3
(RFC 1321), of a list of byte values, as 16 byte values; its code is outside
the header. -/
def md5Digest (msg : List Nat) : List Nat :=
  let r := (((chunks 64 (md5Pad msg).length (md5Pad msg)).map
      (fun blk => (chunks 4 16 blk).map leWord)).foldl md5Block
      { a := 0x67452301, b := 0xefcdab89, c := 0x98badcfe, d := 0x10325476 })
  leBytes 4 r.a ++ leBytes 4 r.b ++ leBytes 4 r.c ++ leBytes 4 r.d

/-- Modelled from the spec: the `HMAC-MD5` of section 4.3 (RFC 2104 over MD5),
on lists of byte values; its code is outside the header.  A key longer than the
block of 64 bytes is hashed first; the key is padded with zeros to 64 bytes. -/
def hmacDigest (key msg : List Nat) : List Nat :=
  let k0 := if key.length > 64 then md5Digest key else key
  let k := k0 ++ List.replicate (64 - k0.length) 0
  md5Digest (k.map (fun b => b ^^^ 0x5c) ++ md5Digest (k.map (fun b => b ^^^ 0x36) ++ msg))

/-- Modelled from the spec: `HMAC-MD5(key, msg)` of section 4.3 (RFC 2104 over
RFC 1321), on bytes; its code is outside the header. -/
def hmacMD5 (key msg : List Byte) : List Byte :=
  (hmacDigest (key.map Fin.val) (msg.map Fin.val)).map byteOf

/-- The lowercase hexadecimal digit of a value below 16. -/
def hexDigit (n : Nat) : Byte := if n < 10 then byteOf (48 + n) else byteOf (87 + n)

/-- Modelled from the spec: the lowercase hexadecimal rendering of section 4.3:
two digits for each byte, high-order digit first. -/
def hexLower : List Byte → List Byte
  | [] => []
  | b :: rest => hexDigit (b.val / 16) :: hexDigit (b.val % 16) :: hexLower rest

/-- Modelled from the spec: the line the client answers a CRAM-MD5 challenge
with (section 4.3, steps 3 and 4): base64 of the user name, a space and the
hexadecimal digest. -/
def cramResponse (username password challenge : List Byte) : List Byte :=
  base64Encode (username ++ [SP] ++ hexLower (hmacMD5 password challenge))

/-- Modelled from the spec: the CRAM-MD5 exchange of section 4.3, declared in
the header as `loginUsingCRAM_MD5` without a body.  Sends `AUTH CRAM-MD5` and
expects 334; decodes the reply text as base64 into the challenge; sends the
response line and expects 235.  Any other status, and a challenge that is not
base64, is an `AuthError`. -/
def loginUsingCRAM_MD5 (username password : List Byte) (s : Session) :
    Except ErrorKind Unit × Session :=
  match sendCommand (str "AUTH CRAM-MD5") none s with
  | (.error e, s1) => (.error e, s1)
  | (.ok r, s1) =>
    if r.code = 334 then
      match base64Decode r.text with
      | none => (.error .AuthError, s1)
      | some challenge =>
        match sendCommand (cramResponse username password challenge) none s1 with
        | (.error e, s2) => (.error e, s2)
        | (.ok r2, s2) => if r2.code = 235 then (.ok (), s2) else (.error .AuthError, s2)
    else (.error .AuthError, s1)

/-! ## Part 3: theorems -/

set_option maxRecDepth 100000

/-! ### The status predicates -/

theorem digits_three (n : Nat) (h1 : 100 ≤ n) (h2 : n < 1000) :
    Nat.digits 10 n = [n % 10, n / 10 % 10, n / 100] := by
  have a : 0 < n := by omega
  have b : 0 < n / 10 := by omega
  have c : 0 < n / 10 / 10 := by omega
  rw [Nat.digits_def' (by decide) a, Nat.digits_def' (by decide) b,
    Nat.digits_def' (by decide) c]
  have d : n / 10 / 10 / 10 = 0 := by omega
  rw [d]; simp; omega

theorem tdiv_hundred_of_nonneg (c : Int) (h : 0 ≤ c) :
    Int.tdiv c 100 = ((c.toNat / 100 : Nat) : Int) := by
  rw [Int.tdiv_eq_ediv h (by decide)]
  omega

theorem highOrderDigit_eq (c : Int) (h1 : 100 ≤ c) (h2 : c ≤ 999) :
    highOrderDigit c = c.toNat / 100 ∧ hundredsDigit c = c.toNat / 100 := by
  unfold highOrderDigit hundredsDigit
  rw [digits_three c.toNat (by omega) (by omega)]
  simp

theorem tdiv_hundred_cases (s : Int) :
    (Int.tdiv s 100 = 2 ↔ 200 ≤ s ∧ s ≤ 299) ∧ (Int.tdiv s 100 = 3 ↔ 300 ≤ s ∧ s ≤ 399) ∧
    (Int.tdiv s 100 = 4 ↔ 400 ≤ s ∧ s ≤ 499) ∧ (Int.tdiv s 100 = 5 ↔ 500 ≤ s ∧ s ≤ 599) := by
  rcases le_or_lt 0 s with h | h
  · rw [Int.tdiv_eq_ediv h (by decide)]; omega
  · have e : Int.tdiv s 100 = -((-s) / 100) := by
      have h1 := Int.neg_tdiv (-s) 100
      rw [neg_neg] at h1
      rw [h1, Int.tdiv_eq_ediv (by omega) (by decide)]
    rw [e]; omega

/-- C1: for a reply code `c` with `100 ≤ c ≤ 599`, each of the four status
predicates returns true exactly when the high-order decimal digit of `c`, which
is its hundreds digit, is the digit of the predicate's class: 2 for
`isPositiveCompletion`, 3 for `isPositiveIntermediate`, 4 for
`isTransientNegative`, 5 for `isPermanentNegative`. -/
theorem status_class_is_high_order_digit (c : Int) (h1 : 100 ≤ c) (h2 : c ≤ 599) :
    (isPositiveCompletion c = true ↔ highOrderDigit c = 2) ∧
    (isPositiveIntermediate c = true ↔ highOrderDigit c = 3) ∧
    (isTransientNegative c = true ↔ highOrderDigit c = 4) ∧
    (isPermanentNegative c = true ↔ highOrderDigit c = 5) ∧
    highOrderDigit c = hundredsDigit c := by
  obtain ⟨e1, e2⟩ := highOrderDigit_eq c h1 (by omega)
  rw [e2, e1]
  simp only [isPositiveCompletion, isPositiveIntermediate, isTransientNegative,
    isPermanentNegative, SMTP_POSITIVE_COMPLETION, SMTP_POSITIVE_INTERMEDIATE,
    SMTP_TRANSIENT_NEGATIVE, SMTP_PERMANENT_NEGATIVE, beq_iff_eq,
    tdiv_hundred_of_nonneg c (by omega)]
  refine ⟨?_, ?_, ?_, ?_, trivial⟩ <;> omega

/-- Witness of C1 at the code 354: in range, and of the class 3 only. -/
theorem status_class_is_high_order_digit_witness :
    ((100 : Int) ≤ 354 ∧ (354 : Int) ≤ 599) ∧
    ((isPositiveCompletion 354 = true ↔ highOrderDigit 354 = 2) ∧
     (isPositiveIntermediate 354 = true ↔ highOrderDigit 354 = 3) ∧
     (isTransientNegative 354 = true ↔ highOrderDigit 354 = 4) ∧
     (isPermanentNegative 354 = true ↔ highOrderDigit 354 = 5) ∧
     highOrderDigit 354 = hundredsDigit 354) ∧
    isPositiveIntermediate 354 = true ∧ isPositiveCompletion 354 = false :=
  ⟨⟨by decide, by decide⟩,
   status_class_is_high_order_digit 354 (by decide) (by decide), by decide, by decide⟩

/-- C10: for every integer status, negative ones included, exactly one of the
four status predicates returns true when `200 ≤ status ≤ 599`, and none of them
returns true otherwise; a 1xx code belongs to no class. -/
theorem status_predicates_partition (status : Int) :
    ((200 ≤ status ∧ status ≤ 599) → classCount status = 1) ∧
    (¬ (200 ≤ status ∧ status ≤ 599) →
      isPositiveCompletion status = false ∧ isPositiveIntermediate status = false ∧
      isTransientNegative status = false ∧ isPermanentNegative status = false) ∧
    ((100 ≤ status ∧ status ≤ 199) → classCount status = 0) := by
  obtain ⟨t2, t3, t4, t5⟩ := tdiv_hundred_cases status
  simp only [classCount, isPositiveCompletion, isPositiveIntermediate, isTransientNegative,
    isPermanentNegative, SMTP_POSITIVE_COMPLETION, SMTP_POSITIVE_INTERMEDIATE,
    SMTP_TRANSIENT_NEGATIVE, SMTP_PERMANENT_NEGATIVE]
  by_cases c2 : 200 ≤ status ∧ status ≤ 299
  · have h2 := t2.2 c2
    simp [h2]; omega
  · by_cases c3 : 300 ≤ status ∧ status ≤ 399
    · have h3 := t3.2 c3
      simp [h3]; omega
    · by_cases c4 : 400 ≤ status ∧ status ≤ 499
      · have h4 := t4.2 c4
        simp [h4]; omega
      · by_cases c5 : 500 ≤ status ∧ status ≤ 599
        · have h5 := t5.2 c5
          simp [h5]; omega
        · have n2 : ¬ Int.tdiv status 100 = 2 := fun h => c2 (t2.1 h)
          have n3 : ¬ Int.tdiv status 100 = 3 := fun h => c3 (t3.1 h)
          have n4 : ¬ Int.tdiv status 100 = 4 := fun h => c4 (t4.1 h)
          have n5 : ¬ Int.tdiv status 100 = 5 := fun h => c5 (t5.1 h)
          simp [n2, n3, n4, n5]; omega

/-- Witness of C10 at the codes 250 (one class), 150 and -250 (no class). -/
theorem status_predicates_partition_witness :
    classCount 250 = 1 ∧ classCount 150 = 0 ∧
    (isPositiveCompletion (-250) = false ∧ isPositiveIntermediate (-250) = false ∧
      isTransientNegative (-250) = false ∧ isPermanentNegative (-250) = false) :=
  ⟨(status_predicates_partition 250).1 (by decide),
   (status_predicates_partition 150).2.2 (by decide),
   (status_predicates_partition (-250)).2.1 (by decide)⟩

/-! ### The constants and the enumerations -/

/-- C7: the default read timeout is 30 seconds: `DEFAULT_TIMEOUT`, in
microseconds, equals 30 * 1000000. -/
theorem default_timeout_is_thirty_seconds :
    DEFAULT_TIMEOUT = 30 * 1000000 ∧ DEFAULT_TIMEOUT = 30 * microsecondsPerSecond := by
  exact ⟨by decide, by decide⟩

/-- C9: the default SMTP port is 25: `SMTP_PORT` equals 25, a session created
from a host name without a port uses it, and a port passed by the caller
overrides it. -/
theorem default_port_is_25 :
    SMTP_PORT = 25 ∧ constructorPort none = 25 ∧ ∀ p, constructorPort (some p) = p :=
  ⟨rfl, rfl, fun _ => rfl⟩

/-- C8: `LoginMethod` has exactly three values, `AUTH_NONE`, `AUTH_CRAM_MD5` and
`AUTH_LOGIN`, pairwise distinct as values and as integers; no enumerator is
named for PLAIN; `LoginMethod` is public, and `loginUsingPlain` is declared
once, outside the public section. -/
theorem login_methods_are_three :
    (∀ m : LoginMethod, m = .AUTH_NONE ∨ m = .AUTH_CRAM_MD5 ∨ m = .AUTH_LOGIN) ∧
    (LoginMethod.AUTH_NONE ≠ .AUTH_CRAM_MD5 ∧ LoginMethod.AUTH_NONE ≠ .AUTH_LOGIN ∧
      LoginMethod.AUTH_CRAM_MD5 ≠ .AUTH_LOGIN) ∧
    Function.Injective LoginMethod.toInt ∧
    LoginMethod.enumerators.map Prod.fst = ["AUTH_NONE", "AUTH_CRAM_MD5", "AUTH_LOGIN"] ∧
    (∀ m : LoginMethod, m ∈ LoginMethod.enumerators.map Prod.snd) ∧
    "AUTH_PLAIN" ∉ LoginMethod.enumerators.map Prod.fst ∧
    accessOf "LoginMethod" = [Access.pub] ∧
    accessOf "loginUsingPlain" = [Access.prot] ∧
    Access.pub ∉ accessOf "loginUsingPlain" := by
  refine ⟨?_, ⟨by decide, by decide, by decide⟩, ?_, rfl, ?_, by decide, by decide, by decide,
    by decide⟩
  · intro m; cases m <;> simp
  · intro a b h; cases a <;> cases b <;> first | rfl | (exact absurd h (by decide))
  · intro m; cases m <;> decide

/-! ### open() and login() -/

theorem readReply_snd (s : Session) :
    (readReply s).2 = { s with incoming := (read_reply s.incoming).2,
                               replyReads := s.replyReads + 1 } := rfl

theorem open_closed_cases (s : Session) (h : s.isOpen = false) :
    («open» s).2 = (readReply s).2 ∨
    ((«open» s).1 = .ok () ∧ («open» s).2 = { (readReply s).2 with isOpen := true }) := by
  unfold «open»
  simp only [h]
  cases hr : readReply s with
  | mk r s1 =>
    cases r with
    | error e => left; rfl
    | ok r =>
      by_cases c : isPositiveCompletion r.code = true
      · right; simp [c]
      · left; simp [c]

theorem open_closed_ok (s : Session) (h : s.isOpen = false) (hok : («open» s).1 = .ok ()) :
    («open» s).2 = { (readReply s).2 with isOpen := true } := by
  unfold «open» at hok ⊢
  simp only [h] at hok ⊢
  cases hr : readReply s with
  | mk r s1 =>
    rw [hr] at hok
    cases r with
    | error e => simp at hok
    | ok r =>
      by_cases c : isPositiveCompletion r.code = true
      · simp [c]
      · simp [c] at hok

theorem open_wire (s : Session) : («open» s).2.wire = s.wire := by
  by_cases h : s.isOpen = true
  · unfold «open»; simp [h]
  · rcases open_closed_cases s (by simpa using h) with e | ⟨_, e⟩ <;> rw [e, readReply_snd]

theorem open_of_closed (s : Session) (h : s.isOpen = false) :
    («open» s).2.replyReads = s.replyReads + 1 ∧
    («open» s).2.incoming = (read_reply s.incoming).2 ∧
    ((«open» s).1 = .ok () → («open» s).2.isOpen = true) := by
  refine ⟨?_, ?_, ?_⟩
  · rcases open_closed_cases s h with e | ⟨_, e⟩ <;> rw [e, readReply_snd]
  · rcases open_closed_cases s h with e | ⟨_, e⟩ <;> rw [e, readReply_snd]
  · intro hok
    rw [open_closed_ok s h hok]

theorem open_of_open (s : Session) (h : s.isOpen = true) : «open» s = (.ok (), s) := by
  unfold «open»
  simp [h]

theorem open_ok_isOpen (s : Session) (h : («open» s).1 = .ok ()) : («open» s).2.isOpen = true := by
  by_cases c : s.isOpen = true
  · rw [open_of_open s c]; exact c
  · exact (open_of_closed s (by simpa using c)).2.2 h

/-- C3: `open()` is idempotent.  On a session that is already open it returns
at once: nothing is read from the server and the session is unchanged.  So a
call of `open()` that follows a successful one does nothing, and two
consecutive calls on a session that has not read its greeting perform exactly
one reply read, which consumes exactly one reply from the server. -/
theorem open_is_idempotent :
    (∀ s : Session, s.isOpen = true →
      «open» s = (.ok (), s) ∧ («open» s).2.replyReads = s.replyReads ∧
      («open» s).2.incoming = s.incoming) ∧
    (∀ s : Session, («open» s).1 = .ok () → «open» («open» s).2 = (.ok (), («open» s).2)) ∧
    (∀ s : Session, s.isOpen = false →
      (openTwice s).2.replyReads = s.replyReads + 1 ∧
      (openTwice s).2.incoming = (read_reply s.incoming).2) := by
  refine ⟨?_, ?_, ?_⟩
  · intro s h
    rw [open_of_open s h]
    exact ⟨rfl, rfl, rfl⟩
  · intro s h
    exact open_of_open _ (open_ok_isOpen s h)
  · intro s h
    obtain ⟨h1, h2, h3⟩ := open_of_closed s h
    unfold openTwice
    split
    · rename_i e s1 heq
      rw [heq] at h1 h2
      exact ⟨h1, h2⟩
    · rename_i u s1 heq
      rw [heq] at h1 h2 h3
      rw [open_of_open s1 (h3 rfl)]
      exact ⟨h1, h2⟩

/-- Witness of C3: a new session whose server greets with 220.  The first
`open()` reads the greeting; the second reads nothing. -/
theorem open_is_idempotent_witness :
    («open» (connect [str "220 mx.example.org ESMTP", str "250 ok"])).1 = .ok () ∧
    («open» (connect [str "220 mx.example.org ESMTP", str "250 ok"])).2.replyReads = 1 ∧
    «open» («open» (connect [str "220 mx.example.org ESMTP", str "250 ok"])).2
      = (.ok (), («open» (connect [str "220 mx.example.org ESMTP", str "250 ok"])).2) ∧
    (openTwice (connect [str "220 mx.example.org ESMTP", str "250 ok"])).2.replyReads = 0 + 1 ∧
    (openTwice (connect [str "220 mx.example.org ESMTP", str "250 ok"])).2.incoming
      = [str "250 ok"] :=
  ⟨by decide, by decide,
   open_is_idempotent.2.1 (connect [str "220 mx.example.org ESMTP", str "250 ok"]) (by decide),
   (open_is_idempotent.2.2 (connect [str "220 mx.example.org ESMTP", str "250 ok"]) rfl).1,
   by decide⟩

theorem open_eq_of_ok (s : Session) (h : («open» s).1 = .ok ()) :
    «open» s = (.ok (), («open» s).2) := by
  rw [← h]

theorem sendCommand_some (command a : List Byte) (s : Session) :
    sendCommand command (some a) s =
      ((read_reply s.incoming).1,
        { s with wire := s.wire ++ (command ++ [SP] ++ a) ++ [CR, LF],
                 incoming := (read_reply s.incoming).2,
                 replyReads := s.replyReads + 1 }) := rfl

theorem sendCommand_none (command : List Byte) (s : Session) :
    sendCommand command none s =
      ((read_reply s.incoming).1,
        { s with wire := s.wire ++ command ++ [CR, LF],
                 incoming := (read_reply s.incoming).2,
                 replyReads := s.replyReads + 1 }) := rfl

theorem classes_exclusive (c : Int) :
    (isPositiveCompletion c = true → isPermanentNegative c = false ∧ isTransientNegative c = false) ∧
    (isPermanentNegative c = true → isPositiveCompletion c = false ∧ isTransientNegative c = false) ∧
    (isTransientNegative c = true → isPositiveCompletion c = false ∧ isPermanentNegative c = false) := by
  simp only [isPositiveCompletion, isPermanentNegative, isTransientNegative,
    SMTP_POSITIVE_COMPLETION, SMTP_PERMANENT_NEGATIVE, SMTP_TRANSIENT_NEGATIVE, beq_iff_eq,
    beq_eq_false_iff_ne, ne_eq]
  omega

/-- C2, amended: for every host name and every server behaviour for which
`open()` succeeds (the session is open already, or the greeting is 2xx),
`login(hostname)` first sends `EHLO hostname`.  If the reply to it is 2xx the
login succeeds and nothing more is sent.  If the reply is 5xx, `HELO hostname`
is sent, and the login succeeds exactly when a reply to it is read and is 2xx;
a reply to `HELO` of any other class is a `ProtocolError`.  If the reply to
`EHLO` is 4xx the login fails and `HELO` is not sent. -/
theorem login_after_open (hostname : List Byte) (s : Session)
    (hopen : («open» s).1 = .ok ()) :
    (∃ more, (login hostname s).2.wire
        = s.wire ++ (str "EHLO" ++ [SP] ++ hostname ++ [CR, LF]) ++ more) ∧
    (∀ r, (read_reply («open» s).2.incoming).1 = .ok r → isPositiveCompletion r.code = true →
      (login hostname s).1 = .ok () ∧
      (login hostname s).2.wire = s.wire ++ (str "EHLO" ++ [SP] ++ hostname ++ [CR, LF])) ∧
    (∀ r, (read_reply («open» s).2.incoming).1 = .ok r → isPermanentNegative r.code = true →
      (login hostname s).2.wire
        = s.wire ++ (str "EHLO" ++ [SP] ++ hostname ++ [CR, LF])
            ++ (str "HELO" ++ [SP] ++ hostname ++ [CR, LF]) ∧
      ((login hostname s).1 = .ok () ↔
        ∃ r2, (read_reply (read_reply («open» s).2.incoming).2).1 = .ok r2 ∧
          isPositiveCompletion r2.code = true) ∧
      (∀ r2, (read_reply (read_reply («open» s).2.incoming).2).1 = .ok r2 →
        isPositiveCompletion r2.code = false →
        (login hostname s).1 = .error .ProtocolError)) ∧
    (∀ r, (read_reply («open» s).2.incoming).1 = .ok r → isTransientNegative r.code = true →
      (∃ e, (login hostname s).1 = .error e) ∧
      (login hostname s).2.wire = s.wire ++ (str "EHLO" ++ [SP] ++ hostname ++ [CR, LF])) := by
  have hw := open_wire s
  have ho := open_eq_of_ok s hopen
  generalize («open» s).2 = s1 at hw ho ⊢
  unfold login login_response
  rw [ho]
  simp only [sendCommand_some]
  cases h1 : (read_reply s1.incoming).1 with
  | error e =>
    simp [hw]
  | ok r =>
    simp only []
    by_cases c2 : isPositiveCompletion r.code = true
    · have ex := (classes_exclusive r.code).1 c2
      simp [c2, ex, hw]
    · by_cases c5 : isPermanentNegative r.code = true
      · have ex := (classes_exclusive r.code).2.1 c5
        cases h2 : (read_reply (read_reply s1.incoming).2).1 with
        | error e => simp [c2, c5, ex, hw, h2]
        | ok r2 =>
          by_cases d2 : isPositiveCompletion r2.code = true
          · simp [c2, c5, ex, hw, h2, d2]
          · simp [c2, c5, ex, hw, h2, d2]
      · by_cases c4 : isTransientNegative r.code = true
        · simp [c2, c5, c4, hw]
        · simp [c2, c5, c4, hw]

/-- Counterexample to C2 as stated: a server that greets with 554.  `login`
fails in `open()` with a `ProtocolError` and writes nothing at all, so no
`EHLO` is sent. -/
theorem login_sends_nothing_after_bad_greeting :
    (login (str "client.example")
      (connect [str "554 no SMTP service here", str "250 ok"])).1 = .error .ProtocolError ∧
    (login (str "client.example")
      (connect [str "554 no SMTP service here", str "250 ok"])).2.wire = [] ∧
    ¬ ∃ more, (login (str "client.example")
      (connect [str "554 no SMTP service here", str "250 ok"])).2.wire
        = (connect [str "554 no SMTP service here", str "250 ok"]).wire
          ++ (str "EHLO" ++ [SP] ++ str "client.example" ++ [CR, LF]) ++ more := by
  have h : (login (str "client.example")
      (connect [str "554 no SMTP service here", str "250 ok"])).2.wire = [] := by decide
  refine ⟨by decide, h, ?_⟩
  rintro ⟨more, hm⟩
  rw [h] at hm
  have := congrArg List.length hm
  simp [connect, str] at this

/-- Witness of C2 (scenario S2): the greeting is 220, the server answers `EHLO`
with 500 and `HELO` with 250; both commands are sent and the login succeeds. -/
theorem login_after_open_witness :
    («open» (connect [str "220 mx.example.org ESMTP", str "500 unknown command",
      str "250 ok"])).1 = .ok () ∧
    (login (str "client.example") (connect [str "220 mx.example.org ESMTP",
      str "500 unknown command", str "250 ok"])).2.wire
      = str "EHLO client.example\r\nHELO client.example\r\n" ∧
    (login (str "client.example") (connect [str "220 mx.example.org ESMTP",
      str "500 unknown command", str "250 ok"])).1 = .ok () :=
  ⟨by decide,
   ((login_after_open (str "client.example") (connect [str "220 mx.example.org ESMTP",
      str "500 unknown command", str "250 ok"]) (by decide)).2.2.1
      { code := 500, text := str "unknown command" } (by decide) (by decide)).1.trans (by decide),
   ((login_after_open (str "client.example") (connect [str "220 mx.example.org ESMTP",
      str "500 unknown command", str "250 ok"]) (by decide)).2.2.1
      { code := 500, text := str "unknown command" } (by decide) (by decide)).2.1.2
      ⟨{ code := 250, text := str "ok" }, by decide, by decide⟩⟩

/-! ### The reply parser -/

theorem digitValue_some {b : Byte} {x : Nat} (h : digitValue b = some x) :
    48 ≤ b.val ∧ b.val ≤ 57 ∧ x = b.val - 48 := by
  unfold digitValue at h
  split at h
  · rename_i c
    simp only [Option.some.injEq] at h
    exact ⟨c.1, c.2, h.symm⟩
  · simp at h

theorem lineCode_cons (a b c : Byte) (t : List Byte) :
    lineCode (a :: b :: c :: t) =
      match digitValue a, digitValue b, digitValue c with
      | some x, some y, some z => some (100 * x + 10 * y + z)
      | _, _, _ => none := rfl

theorem lineCode_length {line : List Byte} {code : Nat} (h : lineCode line = some code) :
    ∃ a b c t, line = a :: b :: c :: t := by
  match line, h with
  | a :: b :: c :: t, _ => exact ⟨a, b, c, t, rfl⟩
  | [], h => simp [lineCode] at h
  | [_], h => simp [lineCode] at h
  | [_, _], h => simp [lineCode] at h

theorem lineCode_some {line : List Byte} {code : Nat} (h : lineCode line = some code) :
    line.take 3 = threeDigits code ∧ code < 1000 := by
  obtain ⟨a, b, c, t, rfl⟩ := lineCode_length h
  rw [lineCode_cons] at h
  cases hx : digitValue a with
  | none => simp [hx] at h
  | some x =>
    cases hy : digitValue b with
    | none => simp [hx, hy] at h
    | some y =>
      cases hz : digitValue c with
      | none => simp [hx, hy, hz] at h
      | some z =>
        simp only [hx, hy, hz, Option.some.injEq] at h
        obtain ⟨a1, a2, a3⟩ := digitValue_some hx
        obtain ⟨b1, b2, b3⟩ := digitValue_some hy
        obtain ⟨c1, c2, c3⟩ := digitValue_some hz
        have ha := a.isLt
        have hb := b.isLt
        have hc := c.isLt
        subst h
        refine ⟨?_, by omega⟩
        simp only [List.take_succ_cons, List.take_zero, threeDigits, List.cons.injEq, and_true]
        refine ⟨?_, ?_, ?_⟩ <;> apply Fin.ext <;> simp only [Fin.ofNat, Fin.val_mk] <;> omega

theorem threeDigits_injective {c d : Nat} (hc : c < 1000) (hd : d < 1000)
    (h : threeDigits c = threeDigits d) : c = d := by
  simp only [threeDigits, List.cons.injEq, and_true] at h
  obtain ⟨h1, h2, h3⟩ := h
  have e1 := congrArg Fin.val h1
  have e2 := congrArg Fin.val h2
  have e3 := congrArg Fin.val h3
  simp only [Fin.ofNat, Fin.val_mk] at e1 e2 e3
  omega

theorem read_reply_from_cons (recorded : Option Nat) (acc line : List Byte)
    (rest : List (List Byte)) (code : Nat) (h : lineCode line = some code)
    (hr : recorded = none ∨ recorded = some code) :
    read_reply_from recorded acc (line :: rest) =
      match line.drop 3 with
      | [] => (.ok { code := code, text := acc }, rest)
      | sep :: remainder =>
        if sep = SP then (.ok { code := code, text := acc ++ remainder }, rest)
        else if sep = DASH then read_reply_from (some code) (acc ++ remainder ++ [LF]) rest
        else (.error .ProtocolError, rest) := by
  rw [read_reply_from]
  simp only [h]
  have : ¬ (recorded.isSome = true ∧ recorded ≠ some code) := by
    rcases hr with e | e <;> simp [e]
  simp only [this, if_false]

theorem drop_three_of_dash {line : List Byte} (h : line.get? 3 = some DASH) :
    ∃ remainder, line.drop 3 = DASH :: remainder := by
  match line, h with
  | _ :: _ :: _ :: d :: t, h =>
    simp only [List.get?_cons_succ, List.get?_cons_zero, Option.some.injEq] at h
    exact ⟨t, by simp [h]⟩

theorem final_line_drop {line : List Byte}
    (h : line.length = 3 ∨ line.get? 3 = some SP) :
    line.drop 3 = [] ∨ ∃ remainder, line.drop 3 = SP :: remainder := by
  rcases h with h | h
  · left
    exact List.drop_eq_nil_of_le (by omega)
  · right
    match line, h with
    | _ :: _ :: _ :: d :: t, h =>
      simp only [List.get?_cons_succ, List.get?_cons_zero, Option.some.injEq] at h
      exact ⟨t, by simp [h]⟩

theorem read_reply_from_wellFormed (rest : List (List Byte)) (digits : List Byte) :
    ∀ (group : List (List Byte)) (recorded : Option Nat) (acc : List Byte),
      wellFormedFrom digits group = true →
      (∀ c, recorded = some c → threeDigits c = digits ∧ c < 1000) →
      ∃ code text, read_reply_from recorded acc (group ++ rest) = (.ok ⟨code, text⟩, rest) ∧
        threeDigits code = digits ∧ code < 1000 ∧
        ∀ l ∈ group, l.take 3 = digits ∧ (lineCode l).isSome = true := by
  intro group
  induction group with
  | nil => intro _ _ h; simp [wellFormedFrom] at h
  | cons line tail ih =>
    intro recorded acc h hrec
    have key : ∀ code, lineCode line = some code → line.take 3 = digits →
        (recorded = none ∨ recorded = some code) ∧ threeDigits code = digits ∧ code < 1000 := by
      intro code hc ht
      obtain ⟨h1, h2⟩ := lineCode_some hc
      have hd : threeDigits code = digits := by rw [← h1, ht]
      refine ⟨?_, hd, h2⟩
      cases hr : recorded with
      | none => left; rfl
      | some c =>
        right
        obtain ⟨e1, e2⟩ := hrec c hr
        rw [threeDigits_injective e2 h2 (e1.trans hd.symm)]
    cases tail with
    | nil =>
      simp only [wellFormedFrom, isFinalLine, Bool.and_eq_true, Bool.or_eq_true,
        decide_eq_true_eq, Option.isSome_iff_exists] at h
      obtain ⟨⟨⟨code, hc⟩, hfin⟩, ht⟩ := h
      obtain ⟨hr, hd, hlt⟩ := key code hc ht
      rw [List.singleton_append, read_reply_from_cons recorded acc line rest code hc hr]
      rcases final_line_drop hfin with e | ⟨remainder, e⟩
      · rw [e]
        exact ⟨code, acc, rfl, hd, hlt, by simpa using ⟨ht, by simp [hc]⟩⟩
      · rw [e]
        simp only [if_true]
        exact ⟨code, acc ++ remainder, rfl, hd, hlt, by simpa using ⟨ht, by simp [hc]⟩⟩
    | cons next more =>
      simp only [wellFormedFrom, isContinuationLine, Bool.and_eq_true,
        decide_eq_true_eq, Option.isSome_iff_exists] at h
      obtain ⟨⟨⟨⟨code, hc⟩, hdash⟩, ht⟩, hw⟩ := h
      obtain ⟨hr, hd, hlt⟩ := key code hc ht
      obtain ⟨remainder, e⟩ := drop_three_of_dash hdash
      rw [List.cons_append, read_reply_from_cons recorded acc line _ code hc hr, e]
      have ne : ¬ (DASH = SP) := by decide
      simp only [ne, if_false, if_true]
      obtain ⟨code2, text, h1, h2, h3, h4⟩ := ih (some code) (acc ++ remainder ++ [LF]) hw
        (by intro c hc2; simp only [Option.some.injEq] at hc2; subst hc2; exact ⟨hd, hlt⟩)
      refine ⟨code2, text, h1, h2, h3, ?_⟩
      intro l hl
      rcases List.mem_cons.1 hl with e | e
      · rw [e]; exact ⟨ht, by simp [hc]⟩
      · exact h4 l e

theorem read_reply_from_mismatch (line : List Byte) (rest : List (List Byte))
    (code other : Nat) (hline : lineCode line = some other) (hne : other ≠ code) :
    ∀ (conts : List (List Byte)) (acc : List Byte),
      (∀ l ∈ conts, isContinuationLine l = true ∧ lineCode l = some code) →
      (read_reply_from (some code) acc (conts ++ line :: rest)).1 = .error .ProtocolError := by
  intro conts
  induction conts with
  | nil =>
    intro acc _
    rw [List.nil_append, read_reply_from]
    simp only [hline]
    have : (some code).isSome = true ∧ some code ≠ some other := by
      refine ⟨rfl, ?_⟩
      intro h
      exact hne (Option.some.inj h).symm
    rw [if_pos this]
  | cons l tail ih =>
    intro acc h
    obtain ⟨hcont, hc⟩ := h l (List.mem_cons_self _ _)
    simp only [isContinuationLine, Bool.and_eq_true, decide_eq_true_eq] at hcont
    obtain ⟨remainder, e⟩ := drop_three_of_dash hcont.2
    rw [List.cons_append, read_reply_from_cons (some code) acc l _ code hc (Or.inr rfl), e]
    have ne : ¬ (DASH = SP) := by decide
    simp only [ne, if_false, if_true]
    exact ih _ (fun x hx => h x (List.mem_cons_of_mem _ hx))

/-- C5: for every well-formed reply group (continuation lines and a final line
with the same three leading digits), whatever follows it in the stream, the
reply parser returns a reply and consumes exactly the group, `sendCommand`
returns that reply to its caller, and the code of the reply is the number that
the three leading bytes of every line of the group spell.  And a group in which
a line after one or more continuation lines carries another code is rejected
with a `ProtocolError`. -/
theorem reply_code_is_leading_digits :
    (∀ (group rest : List (List Byte)), wellFormedGroup group = true →
      ∃ reply, read_reply (group ++ rest) = (.ok reply, rest) ∧
        (∀ (command : List Byte) (arg : Option (List Byte)) (s : Session),
          s.incoming = group ++ rest → (sendCommand command arg s).1 = .ok reply) ∧
        ∀ l ∈ group, l.take 3 = threeDigits reply.code ∧ lineCode l = some reply.code) ∧
    (∀ (first : List Byte) (conts : List (List Byte)) (line : List Byte)
      (rest : List (List Byte)) (code other : Nat),
      (∀ l ∈ first :: conts, isContinuationLine l = true ∧ lineCode l = some code) →
      lineCode line = some other → other ≠ code →
      (read_reply (first :: conts ++ line :: rest)).1 = .error .ProtocolError) := by
  constructor
  · intro group rest h
    cases group with
    | nil => simp [wellFormedGroup] at h
    | cons line tail =>
      simp only [wellFormedGroup] at h
      obtain ⟨code, text, h1, h2, h3, h4⟩ :=
        read_reply_from_wellFormed rest (line.take 3) (line :: tail) none [] h
          (by intro c hc; simp at hc)
      refine ⟨⟨code, text⟩, h1, ?_, ?_⟩
      · intro command arg s hs
        cases arg with
        | none => rw [sendCommand_none, hs]; exact congrArg Prod.fst h1
        | some a => rw [sendCommand_some, hs]; exact congrArg Prod.fst h1
      intro l hl
      have ht : l.take 3 = threeDigits code := (h4 l hl).1.trans h2.symm
      refine ⟨ht, ?_⟩
      have hsome : (lineCode l).isSome = true := (h4 l hl).2
      obtain ⟨c, hc⟩ := Option.isSome_iff_exists.1 hsome
      obtain ⟨e1, e2⟩ := lineCode_some hc
      rw [hc, threeDigits_injective e2 h3 (e1.symm.trans ht)]
  · intro first conts line rest code other h hline hne
    obtain ⟨hcont, hc⟩ := h first (List.mem_cons_self _ _)
    simp only [isContinuationLine, Bool.and_eq_true, decide_eq_true_eq] at hcont
    obtain ⟨remainder, e⟩ := drop_three_of_dash hcont.2
    unfold read_reply
    rw [List.cons_append, read_reply_from_cons none [] first _ code hc (Or.inl rfl), e]
    have ne : ¬ (DASH = SP) := by decide
    simp only [ne, if_false, if_true]
    exact read_reply_from_mismatch line rest code other hline hne conts _
      (fun x hx => h x (List.mem_cons_of_mem _ hx))

/-- Witness of C5: the two-line EHLO reply of scenario S1, followed by another
reply, parses to the code 250 and leaves the other reply unread; the group
`250-foo`, `251 bar` is a `ProtocolError`. -/
theorem reply_code_is_leading_digits_witness :
    wellFormedGroup [str "250-mx.example.org", str "250 SIZE 10485760"] = true ∧
    (∃ reply, read_reply ([str "250-mx.example.org", str "250 SIZE 10485760"] ++ [str "354 go"])
        = (.ok reply, [str "354 go"]) ∧
      (∀ (command : List Byte) (arg : Option (List Byte)) (s : Session),
        s.incoming = [str "250-mx.example.org", str "250 SIZE 10485760"] ++ [str "354 go"] →
        (sendCommand command arg s).1 = .ok reply) ∧
      ∀ l ∈ [str "250-mx.example.org", str "250 SIZE 10485760"],
        l.take 3 = threeDigits reply.code ∧ lineCode l = some reply.code) ∧
    (read_reply [str "250-mx.example.org", str "250 SIZE 10485760", str "354 go"]).1
      = .ok { code := 250, text := str "mx.example.org\nSIZE 10485760" } ∧
    (read_reply (str "250-foo" :: [] ++ str "251 bar" :: [])).1 = .error .ProtocolError :=
  ⟨by decide,
   reply_code_is_leading_digits.1 [str "250-mx.example.org", str "250 SIZE 10485760"]
     [str "354 go"] (by decide),
   by decide,
   reply_code_is_leading_digits.2 (str "250-foo") [] (str "251 bar") [] 250 251
     (by decide) (by decide) (by decide)⟩

/-! ### Dot-stuffing -/

theorem dotUnstuff_stuffPayload (payload : List Byte) :
    ∀ (a p : Bool), dotUnstuff a p (stuffPayload a p payload) = normalizeLF p payload := by
  induction payload with
  | nil => intro a p; rfl
  | cons b rest ih =>
    intro a p
    by_cases hlf : b = LF
    · subst hlf
      have n1 : ¬ (LF = DOT) := by decide
      have n2 : ¬ (CR = DOT) := by decide
      have n3 : ¬ (CR = LF) := by decide
      have n4 : ¬ (LF = CR) := by decide
      cases p
      · simp [stuffPayload, normalizeLF, dotUnstuff, n1, n2, n3, n4, ih]
      · simp [stuffPayload, normalizeLF, dotUnstuff, n1, n4, ih]
    · by_cases hdot : b = DOT ∧ a = true
      · obtain ⟨rfl, rfl⟩ := hdot
        have n1 : ¬ (DOT = LF) := by decide
        have n2 : ¬ (DOT = CR) := by decide
        simp [stuffPayload, normalizeLF, dotUnstuff, n1, n2, ih]
      · simp [stuffPayload, normalizeLF, dotUnstuff, hlf, hdot, ih]

theorem dotUnstuff_append_crlf (xs : List Byte) :
    ∀ (a p : Bool), dotUnstuff a p (xs ++ [CR, LF]) = dotUnstuff a p xs ++ [CR, LF] := by
  induction xs with
  | nil =>
    intro a p
    have n1 : ¬ (LF = DOT) := by decide
    have n2 : ¬ (CR = DOT) := by decide
    simp [dotUnstuff, n1, n2]
  | cons b rest ih =>
    intro a p
    by_cases hdot : b = DOT ∧ a = true
    · simp [dotUnstuff, hdot, ih]
    · simp [dotUnstuff, hdot, ih]

theorem normalizeLF_append_byte (b : Byte) (hb : b ≠ LF) (q : List Byte) :
    ∀ p, normalizeLF p (q ++ [b]) = normalizeLF p q ++ [b] := by
  induction q with
  | nil => intro p; simp [normalizeLF, hb]
  | cons c rest ih =>
    intro p
    by_cases hc : c = LF
    · simp [normalizeLF, hc, ih]
    · simp [normalizeLF, hc, ih]

theorem normalizeLF_of_no_bare (payload : List Byte) :
    ∀ p, hasBareLF p payload = false → normalizeLF p payload = payload := by
  induction payload with
  | nil => intro p _; rfl
  | cons b rest ih =>
    intro p h
    by_cases hb : b = LF
    · subst hb
      simp only [hasBareLF, if_true, Bool.or_eq_false_iff, Bool.not_eq_false'] at h
      simp [normalizeLF, h.1, ih false h.2]
    · simp only [hasBareLF, hb, if_false] at h
      simp [normalizeLF, hb, ih _ h]

theorem stuffPayload_ends_crlf (payload : List Byte) :
    ∀ (a p : Bool), payload.getLast? = some LF →
      ∃ front, (if p = true then [CR] else []) ++ stuffPayload a p payload
        = front ++ [CR, LF] := by
  induction payload with
  | nil => intro a p h; simp at h
  | cons b rest ih =>
    intro a p h
    cases rest with
    | nil =>
      simp only [List.getLast?_singleton, Option.some.injEq] at h
      subst h
      cases p
      · exact ⟨[], by simp [stuffPayload]⟩
      · exact ⟨[], by simp [stuffPayload]⟩
    | cons c more =>
      rw [List.getLast?_cons_cons] at h
      by_cases hlf : b = LF
      · obtain ⟨front, hf⟩ := ih true false h
        simp only [Bool.false_eq_true, if_false, List.nil_append] at hf
        refine ⟨(if p = true then [CR] else []) ++ (if p = true then [LF] else [CR, LF]) ++ front, ?_⟩
        rw [stuffPayload]
        simp only [hlf, if_true]
        rw [hf]
        simp
      · by_cases hdot : b = DOT ∧ a = true
        · obtain ⟨front, hf⟩ := ih false false h
          simp only [Bool.false_eq_true, if_false, List.nil_append] at hf
          refine ⟨(if p = true then [CR] else []) ++ [DOT, DOT] ++ front, ?_⟩
          rw [stuffPayload, if_neg hlf, if_pos hdot, hf]
          simp
        · obtain ⟨front, hf⟩ := ih false (decide (b = CR)) h
          by_cases hcr : b = CR
          · simp only [hcr, decide_True, if_true] at hf
            refine ⟨(if p = true then [CR] else []) ++ front, ?_⟩
            rw [stuffPayload]
            simp only [hlf, hdot, if_false]
            rw [hcr]
            simp only [decide_True]
            rw [List.append_assoc, ← hf]
            simp
          · simp only [hcr, decide_False, Bool.false_eq_true, if_false, List.nil_append] at hf
            refine ⟨(if p = true then [CR] else []) ++ [b] ++ front, ?_⟩
            rw [stuffPayload]
            simp only [hlf, hdot, if_false, hcr, decide_False]
            rw [hf]
            simp

theorem stripTerminator_append (front : List Byte) :
    stripTerminator (front ++ [CR, LF, DOT, CR, LF]) = some front := by
  simp [stripTerminator]

theorem stripTrailingCRLF_append (front : List Byte) :
    stripTrailingCRLF (front ++ [CR, LF]) = front := by
  simp [stripTrailingCRLF]

theorem stripTrailingCRLF_of_last (text : List Byte) (h : text.getLast? ≠ some LF) :
    stripTrailingCRLF text = text := by
  unfold stripTrailingCRLF
  split
  · rename_i l c front hr
    have hl : text.getLast? = some l := by
      rw [← List.head?_reverse, hr]; rfl
    have : l ≠ LF := fun e => h (by rw [hl, e])
    simp [this]
  · rfl

theorem normalizeLF_last (payload : List Byte) (h : payload.getLast? ≠ some LF) :
    (normalizeLF false payload).getLast? ≠ some LF := by
  rcases List.eq_nil_or_concat payload with e | ⟨q, b, e⟩
  · subst e; simp [normalizeLF]
  · subst e
    rw [List.concat_eq_append] at h ⊢
    have hb : b ≠ LF := by
      intro hb
      apply h
      simp [hb]
    rw [normalizeLF_append_byte b hb q false]
    simpa using hb

theorem observedPayload_eq (payload : List Byte) :
    (∃ front, sendMessage_data payload = front ++ [CR, LF, DOT, CR, LF]) ∧
    observedPayload payload = some (stripTrailingCRLF (normalizeLF false payload)) := by
  by_cases h : payload.getLast? = some LF
  · obtain ⟨front, hf⟩ := stuffPayload_ends_crlf payload true false h
    simp only [Bool.false_eq_true, if_false, List.nil_append] at hf
    have hd : sendMessage_data payload = front ++ [CR, LF, DOT, CR, LF] := by
      unfold sendMessage_data
      rw [hf, if_pos h]
      simp
    refine ⟨⟨front, hd⟩, ?_⟩
    unfold observedPayload
    rw [hd, stripTerminator_append, ← dotUnstuff_stuffPayload payload true false, hf,
      dotUnstuff_append_crlf, stripTrailingCRLF_append]
    rfl
  · have hd : sendMessage_data payload
        = stuffPayload true false payload ++ [CR, LF, DOT, CR, LF] := by
      unfold sendMessage_data
      rw [if_neg h]
      simp
    refine ⟨⟨_, hd⟩, ?_⟩
    unfold observedPayload
    rw [hd, stripTerminator_append, stripTrailingCRLF_of_last _ (normalizeLF_last payload h),
      ← dotUnstuff_stuffPayload payload true false]
    rfl

/-- C4, amended: for every message payload, the bytes `sendMessage` writes after
the DATA command end with CRLF, full stop, CRLF; with that terminator stripped
and dot-unstuffing applied, they equal the payload with every bare LF written
as CRLF and without its final CRLF, if it ends with one.  So they equal the
payload itself when it has no bare LF and does not end with a newline, and the
payload without its final CRLF when it has no bare LF and ends with CRLF. -/
theorem dot_stuffing_round_trip (payload : List Byte) :
    (∃ front, sendMessage_data payload = front ++ [CR, LF, DOT, CR, LF]) ∧
    observedPayload payload = some (stripTrailingCRLF (normalizeLF false payload)) ∧
    (hasBareLF false payload = false → payload.getLast? ≠ some LF →
      observedPayload payload = some payload) ∧
    (hasBareLF false payload = false → ∀ q, payload = q ++ [CR, LF] →
      observedPayload payload = some q) := by
  obtain ⟨h1, h2⟩ := observedPayload_eq payload
  refine ⟨h1, h2, ?_, ?_⟩
  · intro hb hl
    rw [h2, normalizeLF_of_no_bare payload false hb, stripTrailingCRLF_of_last payload hl]
  · intro hb q hq
    rw [h2, normalizeLF_of_no_bare payload false hb, hq, stripTrailingCRLF_append]

/-- Witness of C4, amended: a payload with a line that starts with a full stop
and no final newline is observed unchanged; the same payload with a final CRLF
is observed without that CRLF. -/
theorem dot_stuffing_round_trip_witness :
    (hasBareLF false (str "Subject: hi\r\n\r\n.hello") = false ∧
      (str "Subject: hi\r\n\r\n.hello").getLast? ≠ some LF) ∧
    sendMessage_data (str "Subject: hi\r\n\r\n.hello")
      = str "Subject: hi\r\n\r\n..hello\r\n.\r\n" ∧
    observedPayload (str "Subject: hi\r\n\r\n.hello") = some (str "Subject: hi\r\n\r\n.hello") ∧
    observedPayload (str "Subject: hi\r\n\r\n.hello\r\n")
      = some (str "Subject: hi\r\n\r\n.hello") :=
  ⟨⟨by decide, by decide⟩, by decide,
   (dot_stuffing_round_trip (str "Subject: hi\r\n\r\n.hello")).2.2.1 (by decide) (by decide),
   (dot_stuffing_round_trip (str "Subject: hi\r\n\r\n.hello\r\n")).2.2.2 (by decide)
     (str "Subject: hi\r\n\r\n.hello") (by decide)⟩

/-- Counterexample to C4 as stated, at the body of scenario S5: the bytes
written after DATA are the ones the scenario gives, and with the terminator
stripped and dot-unstuffing applied they are the body without its final CRLF,
not the body.  A body with a bare LF is not recovered either: the LF comes back
as CRLF. -/
theorem dot_stuffing_round_trip_fails :
    sendMessage_data (str ".hello\r\n..world\r\n") = str "..hello\r\n...world\r\n.\r\n" ∧
    observedPayload (str ".hello\r\n..world\r\n") = some (str ".hello\r\n..world") ∧
    observedPayload (str ".hello\r\n..world\r\n") ≠ some (str ".hello\r\n..world\r\n") ∧
    observedPayload (str "a\nb") = some (str "a\r\nb") ∧
    observedPayload (str "a\nb") ≠ some (str "a\nb") := by
  refine ⟨by decide, by decide, by decide, by decide, by decide⟩

/-! ### CRAM-MD5 -/

theorem base64Value_char : ∀ n, n < 64 → base64Value (base64Char n) = some n := by
  decide

theorem base64Char_ne_pad : ∀ n, n < 64 → base64Char n ≠ PAD := by
  decide

theorem base64Decode_quad (c1 c2 c3 c4 : Byte) (rest : List Byte) :
    base64Decode (c1 :: c2 :: c3 :: c4 :: rest) =
    match base64Value c1, base64Value c2 with
    | some v1, some v2 =>
      if c3 = PAD then
        if c4 = PAD ∧ rest = [] then some [byteOf (v1 * 4 + v2 / 16)] else none
      else
        match base64Value c3 with
        | none => none
        | some v3 =>
          if c4 = PAD then
            if rest = [] then
              some [byteOf (v1 * 4 + v2 / 16), byteOf (v2 % 16 * 16 + v3 / 4)]
            else none
          else
            match base64Value c4 with
            | none => none
            | some v4 =>
              match base64Decode rest with
              | none => none
              | some tail =>
                some (byteOf (v1 * 4 + v2 / 16) :: byteOf (v2 % 16 * 16 + v3 / 4)
                  :: byteOf (v3 % 4 * 64 + v4) :: tail)
    | _, _ => none := by
  rw [base64Decode]

theorem byteOf_eq (a : Byte) (n : Nat) (h : n = a.val) : byteOf n = a := by
  apply Fin.ext
  have := a.isLt
  simp only [byteOf, Fin.ofNat, Fin.val_mk]
  omega

theorem base64_round_trip_aux (n : Nat) :
    ∀ bytes : List Byte, bytes.length ≤ n → base64Decode (base64Encode bytes) = some bytes := by
  induction n with
  | zero =>
    intro bytes h
    have : bytes = [] := List.length_eq_zero.1 (by omega)
    subst this
    rfl
  | succ n ih =>
    intro bytes h
    match bytes, h with
    | [], _ => rfl
    | [a], _ =>
      have ha := a.isLt
      simp only [base64Encode, base64Decode_quad,
        base64Value_char _ (show a.val / 4 < 64 by omega),
        base64Value_char _ (show a.val % 4 * 16 < 64 by omega), if_true, and_self]
      rw [byteOf_eq a _ (by omega)]
    | [a, b], _ =>
      have ha := a.isLt
      have hb := b.isLt
      simp only [base64Encode, base64Decode_quad,
        base64Value_char _ (show a.val / 4 < 64 by omega),
        base64Value_char _ (show a.val % 4 * 16 + b.val / 16 < 64 by omega),
        base64Value_char _ (show b.val % 16 * 4 < 64 by omega),
        base64Char_ne_pad _ (show b.val % 16 * 4 < 64 by omega), if_true, if_false]
      rw [byteOf_eq a _ (by omega), byteOf_eq b _ (by omega)]
    | a :: b :: c :: rest, h =>
      have ha := a.isLt
      have hb := b.isLt
      have hc := c.isLt
      have hr : rest.length ≤ n := by simp only [List.length_cons] at h; omega
      simp only [base64Encode, base64Decode_quad,
        base64Value_char _ (show a.val / 4 < 64 by omega),
        base64Value_char _ (show a.val % 4 * 16 + b.val / 16 < 64 by omega),
        base64Value_char _ (show b.val % 16 * 4 + c.val / 64 < 64 by omega),
        base64Value_char _ (show c.val % 64 < 64 by omega),
        base64Char_ne_pad _ (show b.val % 16 * 4 + c.val / 64 < 64 by omega),
        base64Char_ne_pad _ (show c.val % 64 < 64 by omega), if_false, ih rest hr]
      rw [byteOf_eq a _ (by omega), byteOf_eq b _ (by omega), byteOf_eq c _ (by omega)]

theorem base64_round_trip (bytes : List Byte) :
    base64Decode (base64Encode bytes) = some bytes :=
  base64_round_trip_aux bytes.length bytes (le_refl _)

/-- Known answers: the MD5 test suite of RFC 1321 (section A.5), the HMAC-MD5
test cases 1 and 2 of RFC 2202, and the base64 test vectors of RFC 4648. -/
theorem md5_hmac_base64_known_answers :
    hexLower ((md5Digest []).map byteOf) = str "d41d8cd98f00b204e9800998ecf8427e" ∧
    hexLower ((md5Digest ((str "a").map Fin.val)).map byteOf)
      = str "0cc175b9c0f1b6a831c399e269772661" ∧
    hexLower ((md5Digest ((str "abc").map Fin.val)).map byteOf)
      = str "900150983cd24fb0d6963f7d28e17f72" ∧
    hexLower ((md5Digest ((str "message digest").map Fin.val)).map byteOf)
      = str "f96b697d7cb7938d525a2f31aaf161d0" ∧
    hexLower ((md5Digest ((str ("1234567890123456789012345678901234567890"
        ++ "1234567890123456789012345678901234567890")).map Fin.val)).map byteOf)
      = str "57edf4a22be3c955ac49da2e2107b67a" ∧
    hexLower (hmacMD5 (List.replicate 16 11) (str "Hi There"))
      = str "9294727a3638bb1c13f48ef8158bfc9d" ∧
    hexLower (hmacMD5 (str "Jefe") (str "what do ya want for nothing?"))
      = str "750c783e6ab0b503eaa86e310a5db738" ∧
    base64Encode (str "f") = str "Zg==" ∧ base64Encode (str "fo") = str "Zm8=" ∧
    base64Encode (str "foobar") = str "Zm9vYmFy" ∧
    base64Decode (str "Zm9vYg==") = some (str "foob") := by
  refine ⟨by decide, by decide, by decide, by decide, by decide, by decide, by decide, by decide,
    by decide, by decide, by decide⟩

/-- C6, amended: for every challenge, user name and password: when the server
answers `AUTH CRAM-MD5` with 334 and a text that is the base64 of the
challenge, the next line the client writes base64-decodes to the user name, one
space and the lowercase hexadecimal HMAC-MD5 of the challenge under the
password.  For the challenge `<1896.697170952@postoffice.example>`, the user
`tim` and the password `tanstaaftanstaaf` that is
`tim 8454f06621ef627484bd489952e9bf22`; the digest
`b913a602c7eda7a495b4e6e7334d3890` is the one of the challenge
`<1896.697170952@postoffice.reston.mci.net>` of RFC 2195. -/
theorem cram_md5_response_decodes :
    (∀ (username password challenge text : List Byte) (s : Session)
        (rest : List (List Byte)),
      read_reply s.incoming = (.ok { code := 334, text := text }, rest) →
      base64Decode text = some challenge →
      ∃ line, (loginUsingCRAM_MD5 username password s).2.wire
          = s.wire ++ str "AUTH CRAM-MD5" ++ [CR, LF] ++ line ++ [CR, LF] ∧
        base64Decode line = some (username ++ [SP] ++ hexLower (hmacMD5 password challenge))) ∧
    str "tim" ++ [SP] ++ hexLower (hmacMD5 (str "tanstaaftanstaaf")
        (str "<1896.697170952@postoffice.example>"))
      = str "tim 8454f06621ef627484bd489952e9bf22" ∧
    str "tim" ++ [SP] ++ hexLower (hmacMD5 (str "tanstaaftanstaaf")
        (str "<1896.697170952@postoffice.reston.mci.net>"))
      = str "tim b913a602c7eda7a495b4e6e7334d3890" := by
  refine ⟨?_, by decide, by decide⟩
  intro username password challenge text s rest hreply hdec
  refine ⟨cramResponse username password challenge, ?_, base64_round_trip _⟩
  unfold loginUsingCRAM_MD5
  simp only [sendCommand_none, hreply, hdec, if_true]
  split <;> rename_i heq <;> simp only [Prod.mk.injEq] at heq <;> try rw [← heq.2]
  split <;> rfl

/-- Witness of C6, amended: the session of scenario S3.  The server sends the
base64 of the challenge with 334 and accepts the response with 235. -/
theorem cram_md5_response_decodes_witness :
    read_reply (connect [str "334 PDE4OTYuNjk3MTcwOTUyQHBvc3RvZmZpY2UuZXhhbXBsZT4=",
        str "235 ok"]).incoming
      = (.ok { code := 334, text := str "PDE4OTYuNjk3MTcwOTUyQHBvc3RvZmZpY2UuZXhhbXBsZT4=" },
          [str "235 ok"]) ∧
    base64Decode (str "PDE4OTYuNjk3MTcwOTUyQHBvc3RvZmZpY2UuZXhhbXBsZT4=")
      = some (str "<1896.697170952@postoffice.example>") ∧
    (∃ line, (loginUsingCRAM_MD5 (str "tim") (str "tanstaaftanstaaf")
        (connect [str "334 PDE4OTYuNjk3MTcwOTUyQHBvc3RvZmZpY2UuZXhhbXBsZT4=",
          str "235 ok"])).2.wire
          = (connect [str "334 PDE4OTYuNjk3MTcwOTUyQHBvc3RvZmZpY2UuZXhhbXBsZT4=",
              str "235 ok"]).wire ++ str "AUTH CRAM-MD5" ++ [CR, LF] ++ line ++ [CR, LF] ∧
        base64Decode line = some (str "tim" ++ [SP] ++ hexLower (hmacMD5
          (str "tanstaaftanstaaf") (str "<1896.697170952@postoffice.example>")))) :=
  ⟨by decide, by decide,
   cram_md5_response_decodes.1 (str "tim") (str "tanstaaftanstaaf")
     (str "<1896.697170952@postoffice.example>")
     (str "PDE4OTYuNjk3MTcwOTUyQHBvc3RvZmZpY2UuZXhhbXBsZT4=")
     (connect [str "334 PDE4OTYuNjk3MTcwOTUyQHBvc3RvZmZpY2UuZXhhbXBsZT4=", str "235 ok"])
     [str "235 ok"] (by decide) (by decide)⟩

/-- Counterexample to C6 as stated, at the session of scenario S3: the line the
client writes in answer to the challenge
`<1896.697170952@postoffice.example>` decodes to
`tim 8454f06621ef627484bd489952e9bf22`, not to
`tim b913a602c7eda7a495b4e6e7334d3890`. -/
theorem cram_md5_example_digest_differs :
    (loginUsingCRAM_MD5 (str "tim") (str "tanstaaftanstaaf")
      (connect [str "334 PDE4OTYuNjk3MTcwOTUyQHBvc3RvZmZpY2UuZXhhbXBsZT4=",
        str "235 ok"])).2.wire
      = str "AUTH CRAM-MD5\r\n" ++ cramResponse (str "tim") (str "tanstaaftanstaaf")
          (str "<1896.697170952@postoffice.example>") ++ [CR, LF] ∧
    base64Decode (cramResponse (str "tim") (str "tanstaaftanstaaf")
        (str "<1896.697170952@postoffice.example>"))
      = some (str "tim 8454f06621ef627484bd489952e9bf22") ∧
    base64Decode (cramResponse (str "tim") (str "tanstaaftanstaaf")
        (str "<1896.697170952@postoffice.example>"))
      ≠ some (str "tim b913a602c7eda7a495b4e6e7334d3890") := by
  refine ⟨by decide, by decide, by decide⟩

end SMTPClientSession
